import Mathlib

/-!
Shallow embedding of the AC/DC signal-laboratory core (single-phase AC power
visualizer).  Numeric values of the TypeScript source are modelled as real
numbers; the pure computation functions of the source are translated
definition by definition:

* `Waveform`, `SignalParams`, `SimulationState` — the data model of
  `types.ts` / `constants.ts`.
* `addLoop` / `subLoop` / `normalizePhase` — the phase-difference
  normalization loops of `powerStats` (repeated ±360° adjustment).
* `powerStats` — the power-triangle computation of the App component
  (apparent/active/reactive power, power factor, load classification).
* `getPeakAmplitude`, `calculateSignal` — the RMS-to-peak converter and the
  waveform sampler of `Oscilloscope.tsx`.
* `updateFrequency` — the combined frequency update of the App component.
* `getClient` / `analyzeCircuit` — the external analysis service boundary of
  `geminiService.ts`, with the external call outcome made an explicit
  parameter and thrown exceptions modelled by `Except.error`.
-/

namespace ACLab

/-- The closed waveform tag set of `types.ts`. -/
inductive Waveform where
  | sine
  | square
  | triangle
  | sawtooth
deriving DecidableEq

/-- `SignalParams` of `types.ts`: amplitude (RMS), frequency in Hz, phase in
degrees, DC offset, waveform tag. -/
structure SignalParams where
  amplitude : ℝ
  frequency : ℝ
  phase : ℝ
  dcOffset : ℝ
  waveform : Waveform

/-- `SimulationState` of `types.ts`. -/
structure SimulationState where
  voltage : SignalParams
  current : SignalParams
  timeWindow : ℝ
  isPlaying : Bool

/-- `DEFAULT_VOLTAGE` of `constants.ts`. -/
def DEFAULT_VOLTAGE : SignalParams :=
  { amplitude := 120, frequency := 60, phase := 0, dcOffset := 0, waveform := .sine }

/-- `DEFAULT_CURRENT` of `constants.ts`. -/
def DEFAULT_CURRENT : SignalParams :=
  { amplitude := 5, frequency := 60, phase := -30, dcOffset := 0, waveform := .sine }

/-- `INITIAL_STATE` of `constants.ts`. -/
def INITIAL_STATE : SimulationState :=
  { voltage := DEFAULT_VOLTAGE, current := DEFAULT_CURRENT, timeWindow := 40, isPlaying := true }

/-- First normalization loop of `powerStats`:
`while (phaseDiffDeg <= -180) phaseDiffDeg += 360`. -/
noncomputable def addLoop (x : ℝ) : ℝ :=
  if h : x ≤ -180 then addLoop (x + 360) else x
termination_by (⌊(180 - x) / 360⌋).toNat
decreasing_by
  have h1 : (1 : ℝ) ≤ (180 - x) / 360 := by
    rw [le_div_iff₀ (by norm_num : (0:ℝ) < 360)]
    linarith
  have h2 : (1 : ℤ) ≤ ⌊(180 - x) / 360⌋ := Int.le_floor.mpr (by exact_mod_cast h1)
  have h3 : (180 - (x + 360)) / 360 = (180 - x) / 360 - 1 := by ring
  rw [h3]
  rw [show ((1:ℝ)) = ((1:ℤ) : ℝ) by norm_num, Int.floor_sub_int]
  omega

/-- Second normalization loop of `powerStats`:
`while (phaseDiffDeg > 180) phaseDiffDeg -= 360`. -/
noncomputable def subLoop (x : ℝ) : ℝ :=
  if h : 180 < x then subLoop (x - 360) else x
termination_by (⌈(x - 180) / 360⌉).toNat
decreasing_by
  have h1 : (0 : ℝ) < (x - 180) / 360 := div_pos (by linarith) (by norm_num)
  have h2 : (1 : ℤ) ≤ ⌈(x - 180) / 360⌉ := Int.ceil_pos.mpr h1
  have h3 : (x - 360 - 180) / 360 = (x - 180) / 360 - 1 := by ring
  rw [h3]
  rw [show ((1:ℝ)) = ((1:ℤ) : ℝ) by norm_num, Int.ceil_sub_int]
  omega

/-- The full phase normalization of `powerStats` (and `PhasorDiagram`): the
add-360 loop followed by the subtract-360 loop. -/
noncomputable def normalizePhase (x : ℝ) : ℝ :=
  subLoop (addLoop x)

/-- The record produced by the `powerStats` memo of the App component.  The
numeric fields hold the values the source passes to `toFixed` (decimal
formatting is a presentation concern and is not modelled); `PF` is the
displayed power-factor magnitude `Math.abs(PF)`. -/
structure PowerStats where
  S : ℝ
  P : ℝ
  Q : ℝ
  PF : ℝ
  phaseDiff : ℝ
  statusType : String
  statusLag : String

/-- The `powerStats` computation of the App component: apparent, active and
reactive power, power factor, normalized phase difference and the load
classification strings (Spanish in the source: Resistivo / Inductivo /
Capacitivo, En fase / En atraso / En adelanto). -/
noncomputable def powerStats (voltage current : SignalParams) : PowerStats :=
  let Vrms := voltage.amplitude
  let Irms := current.amplitude
  let phaseDiffDeg := normalizePhase (voltage.phase - current.phase)
  let phaseDiffRad := phaseDiffDeg * Real.pi / 180
  let S := Vrms * Irms
  let P := S * Real.cos phaseDiffRad
  let Q := S * Real.sin phaseDiffRad
  let PF := Real.cos phaseDiffRad
  let absPhase := |phaseDiffDeg|
  let statusType :=
    if absPhase < 0.1 then "Resistivo"
    else if phaseDiffDeg > 0 then "Inductivo"
    else "Capacitivo"
  let statusLag :=
    if absPhase < 0.1 then "En fase"
    else if phaseDiffDeg > 0 then "En atraso"
    else "En adelanto"
  { S := S, P := P, Q := Q, PF := |PF|, phaseDiff := phaseDiffDeg,
    statusType := statusType, statusLag := statusLag }

/-- `getPeakAmplitude` of `Oscilloscope.tsx`: RMS-to-peak conversion keyed on
the waveform family (`Math.SQRT2` is `sqrt 2`). -/
noncomputable def getPeakAmplitude (rms : ℝ) (waveform : Waveform) : ℝ :=
  match waveform with
  | .square => rms
  | .triangle => rms * Real.sqrt 3
  | .sawtooth => rms * Real.sqrt 3
  | .sine => rms * Real.sqrt 2

/-- `calculateSignal` of `Oscilloscope.tsx`: the waveform sampler.  `Math.sign`
is `Real.sign` (zero at zero), `Math.asin` is `Real.arcsin`, `Math.floor` is
the integer floor. -/
noncomputable def calculateSignal (t_sec peakAmp freq phaseDeg dc : ℝ)
    (waveform : Waveform) : ℝ :=
  let phaseRad := phaseDeg * Real.pi / 180
  let omega := 2 * Real.pi * freq
  let t := t_sec
  let argument := omega * t + phaseRad
  let acValue : ℝ :=
    match waveform with
    | .sine => Real.sin argument
    | .square => Real.sign (Real.sin argument)
    | .triangle => 2 / Real.pi * Real.arcsin (Real.sin argument)
    | .sawtooth =>
        let period := 1 / freq
        let shiftedT := t + phaseDeg / 360 * period
        2 * (shiftedT * freq - ⌊shiftedT * freq + 0.5⌋)
  peakAmp * acValue + dc

/-- `updateFrequency` of the App component: a combined frequency update,
merging the new frequency into both the voltage and the current params. -/
def updateFrequency (prev : SimulationState) (freq : ℝ) : SimulationState :=
  { prev with
    voltage := { prev.voltage with frequency := freq },
    current := { prev.current with frequency := freq } }

/-- `AnalysisResult` of `types.ts` as used by `geminiService.ts`. -/
structure AnalysisResult where
  explanation : String
  impedance : String
  powerFactor : String
  realPower : String
  reactivePower : String

/-- The fallback record returned by the catch block of `analyzeCircuit`. -/
def fallbackAnalysis : AnalysisResult :=
  { explanation := "Análisis no disponible. Asegúrese de que la clave API esté configurada.",
    impedance := "--",
    powerFactor := "--",
    realPower := "--",
    reactivePower := "--" }

/-- `getClient` of `geminiService.ts`: reads `process.env.API_KEY` (modelled
as an `Option String`; the empty string is falsy in the source check
`if (!apiKey)`) and throws when it is absent. -/
def getClient (apiKey : Option String) : Except String String :=
  match apiKey with
  | none => .error "API Key is missing"
  | some k => if k = "" then .error "API Key is missing" else .ok k

/-- Outcome of the external `generateContent` call of `analyzeCircuit`: the
call itself may throw (network / API failure), or return a response whose
`text` field may be absent or empty. -/
inductive GenerateOutcome where
  | failure
  | response (text : Option String)

/-- `analyzeCircuit` of `geminiService.ts`.  A thrown exception is modelled by
`Except.error`; the external call outcome and the JSON parser (`none` models a
`JSON.parse` throw) are explicit parameters.  `getClient` is invoked before
the try block, exactly as in the source, so its throw is not caught; inside
the try block a failed call, a falsy `response.text` and an unparsable body
all throw and are converted to `fallbackAnalysis` by the catch block. -/
def analyzeCircuit (apiKey : Option String) (outcome : GenerateOutcome)
    (parse : String → Option AnalysisResult) : Except String AnalysisResult :=
  match getClient apiKey with
  | .error e => .error e
  | .ok _ =>
    let tryBlock : Except String AnalysisResult :=
      match outcome with
      | .failure => .error "request failed"
      | .response none => .error "No response from Gemini"
      | .response (some t) =>
        if t = "" then .error "No response from Gemini"
        else
          match parse t with
          | none => .error "JSON parse error"
          | some r => .ok r
    match tryBlock with
    | .ok r => .ok r
    | .error _ => .ok fallbackAnalysis

/-- Signal parameters with the given phase, used for concrete classification
checks: amplitude 1, frequency 60, no DC offset, sine waveform. -/
def testParams (ph : ℝ) : SignalParams :=
  { amplitude := 1, frequency := 60, phase := ph, dcOffset := 0, waveform := .sine }

/-- Root-mean-square of a signal over the period window [0, T]: the square
root of the mean of the squared signal over [0, T].  This is the quantity the
round-trip property computes from one full period of the sampler output. -/
noncomputable def rmsOverPeriod (g : ℝ → ℝ) (T : ℝ) : ℝ :=
  Real.sqrt (1 / T * ∫ t in (0:ℝ)..T, g t ^ 2)

theorem addLoop_gt (x : ℝ) : -180 < addLoop x := by
  induction x using addLoop.induct with
  | case1 x h ih =>
    rw [addLoop, dif_pos h]
    exact ih
  | case2 x h =>
    rw [addLoop, dif_neg h]
    exact lt_of_not_le h

theorem addLoop_le (x : ℝ) (hx : x ≤ 180) : addLoop x ≤ 180 := by
  induction x using addLoop.induct with
  | case1 x h ih =>
    rw [addLoop, dif_pos h]
    exact ih (by linarith)
  | case2 x h =>
    rw [addLoop, dif_neg h]
    exact hx

theorem addLoop_id (x : ℝ) (hx : -180 < x) : addLoop x = x := by
  rw [addLoop, dif_neg (not_le.mpr hx)]

theorem subLoop_le (x : ℝ) : subLoop x ≤ 180 := by
  induction x using subLoop.induct with
  | case1 x h ih =>
    rw [subLoop, dif_pos h]
    exact ih
  | case2 x h =>
    rw [subLoop, dif_neg h]
    exact not_lt.mp h

theorem subLoop_gt (x : ℝ) (hx : -180 < x) : -180 < subLoop x := by
  induction x using subLoop.induct with
  | case1 x h ih =>
    rw [subLoop, dif_pos h]
    exact ih (by linarith)
  | case2 x h =>
    rw [subLoop, dif_neg h]
    exact hx

theorem subLoop_id (x : ℝ) (hx : x ≤ 180) : subLoop x = x := by
  rw [subLoop, dif_neg (not_lt.mpr hx)]

theorem normalizePhase_gt (x : ℝ) : -180 < normalizePhase x :=
  subLoop_gt _ (addLoop_gt x)

theorem normalizePhase_le (x : ℝ) : normalizePhase x ≤ 180 :=
  subLoop_le _

theorem normalizePhase_eq_self (x : ℝ) (h1 : -180 < x) (h2 : x ≤ 180) :
    normalizePhase x = x := by
  unfold normalizePhase
  rw [addLoop_id x h1, subLoop_id x h2]

theorem powerStats_S (v c : SignalParams) :
    (powerStats v c).S = v.amplitude * c.amplitude := rfl

theorem powerStats_phaseDiff (v c : SignalParams) :
    (powerStats v c).phaseDiff = normalizePhase (v.phase - c.phase) := rfl

theorem powerStats_P (v c : SignalParams) :
    (powerStats v c).P =
      v.amplitude * c.amplitude *
        Real.cos (normalizePhase (v.phase - c.phase) * Real.pi / 180) := rfl

theorem powerStats_Q (v c : SignalParams) :
    (powerStats v c).Q =
      v.amplitude * c.amplitude *
        Real.sin (normalizePhase (v.phase - c.phase) * Real.pi / 180) := rfl

theorem powerStats_PF (v c : SignalParams) :
    (powerStats v c).PF =
      |Real.cos (normalizePhase (v.phase - c.phase) * Real.pi / 180)| := rfl

theorem powerStats_statusType (v c : SignalParams) :
    (powerStats v c).statusType =
      if |normalizePhase (v.phase - c.phase)| < 0.1 then "Resistivo"
      else if normalizePhase (v.phase - c.phase) > 0 then "Inductivo"
      else "Capacitivo" := rfl

theorem powerStats_statusLag (v c : SignalParams) :
    (powerStats v c).statusLag =
      if |normalizePhase (v.phase - c.phase)| < 0.1 then "En fase"
      else if normalizePhase (v.phase - c.phase) > 0 then "En atraso"
      else "En adelanto" := rfl

theorem calculateSignal_sine (t p f ph dc : ℝ) :
    calculateSignal t p f ph dc .sine =
      p * Real.sin (2 * Real.pi * f * t + ph * Real.pi / 180) + dc := rfl

theorem calculateSignal_square (t p f ph dc : ℝ) :
    calculateSignal t p f ph dc .square =
      p * Real.sign (Real.sin (2 * Real.pi * f * t + ph * Real.pi / 180)) + dc := rfl

theorem calculateSignal_triangle (t p f ph dc : ℝ) :
    calculateSignal t p f ph dc .triangle =
      p * (2 / Real.pi * Real.arcsin (Real.sin (2 * Real.pi * f * t + ph * Real.pi / 180))) +
        dc := rfl

theorem calculateSignal_sawtooth (t p f ph dc : ℝ) :
    calculateSignal t p f ph dc .sawtooth =
      p * (2 * ((t + ph / 360 * (1 / f)) * f - ⌊(t + ph / 360 * (1 / f)) * f + 0.5⌋)) +
        dc := rfl

theorem testParams_phase (ph : ℝ) : (testParams ph).phase = ph := rfl

/-- Claim C3: the phase normalization (add 360 while the value is at most
-180, then subtract 360 while it exceeds 180) is total and lands in the
half-open interval (-180, 180], and it is idempotent. -/
theorem normalizePhase_range_and_idem (x : ℝ) :
    (-180 < normalizePhase x ∧ normalizePhase x ≤ 180) ∧
      normalizePhase (normalizePhase x) = normalizePhase x :=
  ⟨⟨normalizePhase_gt x, normalizePhase_le x⟩,
    normalizePhase_eq_self _ (normalizePhase_gt x) (normalizePhase_le x)⟩

/-- Claim C9: the combined frequency update writes the new frequency into both
the voltage and the current params and leaves every other field of the
simulation state unchanged. -/
theorem updateFrequency_frame (s : SimulationState) (f : ℝ) :
    (updateFrequency s f).voltage.frequency = f ∧
    (updateFrequency s f).current.frequency = f ∧
    (updateFrequency s f).voltage.amplitude = s.voltage.amplitude ∧
    (updateFrequency s f).voltage.phase = s.voltage.phase ∧
    (updateFrequency s f).voltage.dcOffset = s.voltage.dcOffset ∧
    (updateFrequency s f).voltage.waveform = s.voltage.waveform ∧
    (updateFrequency s f).current.amplitude = s.current.amplitude ∧
    (updateFrequency s f).current.phase = s.current.phase ∧
    (updateFrequency s f).current.dcOffset = s.current.dcOffset ∧
    (updateFrequency s f).current.waveform = s.current.waveform ∧
    (updateFrequency s f).timeWindow = s.timeWindow ∧
    (updateFrequency s f).isPlaying = s.isPlaying :=
  ⟨rfl, rfl, rfl, rfl, rfl, rfl, rfl, rfl, rfl, rfl, rfl, rfl⟩

/-- Claim C4: the RMS-to-peak converter returns rms·√2 for sine, rms for
square, and rms·√3 for triangle and sawtooth. -/
theorem getPeakAmplitude_table (rms : ℝ) (h : 0 ≤ rms) :
    getPeakAmplitude rms .sine = rms * Real.sqrt 2 ∧
    getPeakAmplitude rms .square = rms ∧
    getPeakAmplitude rms .triangle = rms * Real.sqrt 3 ∧
    getPeakAmplitude rms .sawtooth = rms * Real.sqrt 3 :=
  ⟨rfl, rfl, rfl, rfl⟩

theorem getPeakAmplitude_table_witness :
    (0 : ℝ) ≤ 1 ∧ getPeakAmplitude 1 .square = 1 :=
  ⟨by norm_num, (getPeakAmplitude_table 1 (by norm_num)).2.1⟩

/-- Claim C6: the sampler's sawtooth branch equals the centered-sawtooth
closed form 2·(frac(shiftedTime·freq + 0.5) − 0.5) with the floor-based
fractional part, for every (also negative) time, frequency and phase. -/
theorem sawtooth_closed_form (t p f ph dc : ℝ) :
    calculateSignal t p f ph dc .sawtooth =
      p * (2 * (Int.fract ((t + ph / 360 * (1 / f)) * f + 0.5) - 0.5)) + dc := by
  rw [calculateSignal_sawtooth, ← Int.self_sub_floor]
  ring

/-- Claim C7: with zero phase and zero DC offset, every waveform's sample at
time 0 is exactly 0 for any peak amplitude and positive frequency; in
particular the square branch resolves sign(sin 0) to 0. -/
theorem sample_zero_at_origin (w : Waveform) (p f : ℝ) (hf : 0 < f) :
    calculateSignal 0 p f 0 0 w = 0 := by
  cases w with
  | sine => rw [calculateSignal_sine]; simp
  | square => rw [calculateSignal_square]; simp
  | triangle => rw [calculateSignal_triangle]; simp
  | sawtooth =>
    rw [calculateSignal_sawtooth]
    have h1 : ((0 : ℝ) + 0 / 360 * (1 / f)) * f = 0 := by ring
    rw [h1]
    have h2 : ⌊(0 : ℝ) + 0.5⌋ = 0 := by
      rw [Int.floor_eq_zero_iff]
      constructor <;> norm_num
    rw [h2]
    norm_num

theorem sample_zero_at_origin_witness :
    (0 : ℝ) < 60 ∧ calculateSignal 0 120 60 0 0 .square = 0 :=
  ⟨by norm_num, sample_zero_at_origin .square 120 60 (by norm_num)⟩

/-- Claim C10: for a nonnegative peak amplitude p the sampler's output always
lies between dc − p and dc + p: the AC component of each waveform branch lies
in [−1, 1] before scaling. -/
theorem sample_bounded (w : Waveform) (t f ph dc p : ℝ) (hp : 0 ≤ p) :
    dc - p ≤ calculateSignal t p f ph dc w ∧ calculateSignal t p f ph dc w ≤ dc + p := by
  have key : ∀ ac : ℝ, -1 ≤ ac → ac ≤ 1 →
      dc - p ≤ p * ac + dc ∧ p * ac + dc ≤ dc + p := by
    intro ac h1 h2
    constructor <;> nlinarith
  cases w with
  | sine =>
    rw [calculateSignal_sine]
    exact key _ (Real.neg_one_le_sin _) (Real.sin_le_one _)
  | square =>
    rw [calculateSignal_square]
    rcases Real.sign_apply_eq (Real.sin (2 * Real.pi * f * t + ph * Real.pi / 180))
      with h | h | h <;> rw [h] <;> exact key _ (by norm_num) (by norm_num)
  | triangle =>
    rw [calculateSignal_triangle]
    have hpi := Real.pi_pos
    have ha1 := Real.neg_pi_div_two_le_arcsin
      (Real.sin (2 * Real.pi * f * t + ph * Real.pi / 180))
    have ha2 := Real.arcsin_le_pi_div_two
      (Real.sin (2 * Real.pi * f * t + ph * Real.pi / 180))
    have hc : 2 / Real.pi * (Real.pi / 2) = 1 := by field_simp
    apply key
    · have := mul_le_mul_of_nonneg_left ha1 (by positivity : (0:ℝ) ≤ 2 / Real.pi)
      nlinarith
    · have := mul_le_mul_of_nonneg_left ha2 (by positivity : (0:ℝ) ≤ 2 / Real.pi)
      nlinarith
  | sawtooth =>
    rw [calculateSignal_sawtooth]
    have h1 : (⌊(t + ph / 360 * (1 / f)) * f + 0.5⌋ : ℝ) ≤ (t + ph / 360 * (1 / f)) * f + 0.5 :=
      Int.floor_le _
    have h2 : (t + ph / 360 * (1 / f)) * f + 0.5 < ⌊(t + ph / 360 * (1 / f)) * f + 0.5⌋ + 1 :=
      Int.lt_floor_add_one _
    exact key _ (by linarith) (by linarith)

theorem sample_bounded_witness :
    (0 : ℝ) ≤ 2 ∧ ((1 : ℝ) - 2 ≤ calculateSignal 0 2 60 0 1 .sine ∧
      calculateSignal 0 2 60 0 1 .sine ≤ 1 + 2) :=
  ⟨by norm_num, sample_bounded .sine 0 60 0 1 2 (by norm_num)⟩

/-- Claim C8 (failing input): when the API key is absent, `getClient` throws
before the try/catch of `analyzeCircuit` is entered, so the error propagates
to the caller instead of being converted into the fallback record — for every
call outcome and every parser. -/
theorem analyzeCircuit_missing_key_propagates (outcome : GenerateOutcome)
    (parse : String → Option AnalysisResult) :
    analyzeCircuit none outcome parse = .error "API Key is missing" := rfl

theorem analyzeCircuit_inner_failures_fall_back (parse : String → Option AnalysisResult) :
    analyzeCircuit (some "key") .failure parse = .ok fallbackAnalysis ∧
    analyzeCircuit (some "key") (.response none) parse = .ok fallbackAnalysis ∧
    ∀ t, parse t = none →
      analyzeCircuit (some "key") (.response (some t)) parse = .ok fallbackAnalysis := by
  refine ⟨rfl, rfl, fun t hp => ?_⟩
  by_cases ht : t = ""
  · simp [analyzeCircuit, getClient, ht]
  · simp [analyzeCircuit, getClient, ht, hp]

/-- Claim C1: the power calculation computes S = Vrms·Irms, P = S·cos Δφ_rad,
Q = S·sin Δφ_rad and displayed power factor |cos Δφ_rad|, where Δφ is the
normalized difference voltagePhase − currentPhase; on the default inputs
(120 V, 0° / 5 A, −30°, both 60 Hz) this gives Δφ = 30°, S = 600 VA,
P = 600·cos 30° = 300·√3 ≈ 519.62 W, Q = 300 VAR, PF = √3/2 ≈ 0.866. -/
theorem power_triangle_formulas :
    (∀ v c : SignalParams,
      (powerStats v c).phaseDiff = normalizePhase (v.phase - c.phase) ∧
      (powerStats v c).S = v.amplitude * c.amplitude ∧
      (powerStats v c).P =
        (powerStats v c).S * Real.cos ((powerStats v c).phaseDiff * Real.pi / 180) ∧
      (powerStats v c).Q =
        (powerStats v c).S * Real.sin ((powerStats v c).phaseDiff * Real.pi / 180) ∧
      (powerStats v c).PF = |Real.cos ((powerStats v c).phaseDiff * Real.pi / 180)|) ∧
    (powerStats DEFAULT_VOLTAGE DEFAULT_CURRENT).phaseDiff = 30 ∧
    (powerStats DEFAULT_VOLTAGE DEFAULT_CURRENT).S = 600 ∧
    (powerStats DEFAULT_VOLTAGE DEFAULT_CURRENT).P = 600 * Real.cos (30 * Real.pi / 180) ∧
    519.6 < (powerStats DEFAULT_VOLTAGE DEFAULT_CURRENT).P ∧
    (powerStats DEFAULT_VOLTAGE DEFAULT_CURRENT).P < 519.63 ∧
    (powerStats DEFAULT_VOLTAGE DEFAULT_CURRENT).Q = 300 ∧
    (powerStats DEFAULT_VOLTAGE DEFAULT_CURRENT).PF = Real.sqrt 3 / 2 ∧
    0.866 < (powerStats DEFAULT_VOLTAGE DEFAULT_CURRENT).PF ∧
    (powerStats DEFAULT_VOLTAGE DEFAULT_CURRENT).PF < 0.8661 := by
  have hn : normalizePhase (DEFAULT_VOLTAGE.phase - DEFAULT_CURRENT.phase) = 30 := by
    rw [show DEFAULT_VOLTAGE.phase - DEFAULT_CURRENT.phase = 30 by norm_num [DEFAULT_VOLTAGE,
      DEFAULT_CURRENT]]
    exact normalizePhase_eq_self 30 (by norm_num) (by norm_num)
  have hdeg : (30 : ℝ) * Real.pi / 180 = Real.pi / 6 := by ring
  have hs3 : Real.sqrt 3 ^ 2 = 3 := Real.sq_sqrt (by norm_num)
  have hs3n : (0 : ℝ) ≤ Real.sqrt 3 := Real.sqrt_nonneg 3
  have hs3lo : (1.732 : ℝ) < Real.sqrt 3 := by nlinarith
  have hs3hi : Real.sqrt 3 < 1.7321 := by nlinarith
  have hP : (powerStats DEFAULT_VOLTAGE DEFAULT_CURRENT).P = 300 * Real.sqrt 3 := by
    rw [powerStats_P, hn, hdeg, Real.cos_pi_div_six]
    show (120 : ℝ) * 5 * (Real.sqrt 3 / 2) = 300 * Real.sqrt 3
    ring
  have hPF : (powerStats DEFAULT_VOLTAGE DEFAULT_CURRENT).PF = Real.sqrt 3 / 2 := by
    rw [powerStats_PF, hn, hdeg, Real.cos_pi_div_six]
    exact abs_of_nonneg (by positivity)
  refine ⟨fun v c => ⟨rfl, rfl, rfl, rfl, rfl⟩, ?_, ?_, ?_, ?_, ?_, ?_, hPF, ?_, ?_⟩
  · rw [powerStats_phaseDiff]; exact hn
  · rw [powerStats_S]
    show (120 : ℝ) * 5 = 600
    norm_num
  · rw [powerStats_P, hn]
    show (120 : ℝ) * 5 * Real.cos (30 * Real.pi / 180) = 600 * Real.cos (30 * Real.pi / 180)
    ring
  · rw [hP]; linarith
  · rw [hP]; linarith
  · rw [powerStats_Q, hn, hdeg, Real.sin_pi_div_six]
    show (120 : ℝ) * 5 * (1 / 2) = 300
    norm_num
  · rw [hPF]; linarith
  · rw [hPF]; linarith

/-- Claim C2: the load classification is Resistivo (in phase) when the
normalized phase difference is below 0.1° in magnitude, Inductivo (lagging)
when it is at least 0.1° and positive, Capacitivo (leading) when it is at
least 0.1° in magnitude and negative; 0.05° is Resistivo, 5° Inductivo,
−5° Capacitivo. -/
theorem classification_policy :
    (∀ v c : SignalParams,
      (|normalizePhase (v.phase - c.phase)| < 0.1 →
        (powerStats v c).statusType = "Resistivo" ∧
        (powerStats v c).statusLag = "En fase") ∧
      (0.1 ≤ |normalizePhase (v.phase - c.phase)| →
        normalizePhase (v.phase - c.phase) > 0 →
        (powerStats v c).statusType = "Inductivo" ∧
        (powerStats v c).statusLag = "En atraso") ∧
      (0.1 ≤ |normalizePhase (v.phase - c.phase)| →
        normalizePhase (v.phase - c.phase) < 0 →
        (powerStats v c).statusType = "Capacitivo" ∧
        (powerStats v c).statusLag = "En adelanto")) ∧
    ((powerStats (testParams 0.05) (testParams 0)).statusType = "Resistivo" ∧
      (powerStats (testParams 0.05) (testParams 0)).statusLag = "En fase") ∧
    ((powerStats (testParams 5) (testParams 0)).statusType = "Inductivo" ∧
      (powerStats (testParams 5) (testParams 0)).statusLag = "En atraso") ∧
    ((powerStats (testParams (-5)) (testParams 0)).statusType = "Capacitivo" ∧
      (powerStats (testParams (-5)) (testParams 0)).statusLag = "En adelanto") := by
  have gen : ∀ v c : SignalParams,
      (|normalizePhase (v.phase - c.phase)| < 0.1 →
        (powerStats v c).statusType = "Resistivo" ∧
        (powerStats v c).statusLag = "En fase") ∧
      (0.1 ≤ |normalizePhase (v.phase - c.phase)| →
        normalizePhase (v.phase - c.phase) > 0 →
        (powerStats v c).statusType = "Inductivo" ∧
        (powerStats v c).statusLag = "En atraso") ∧
      (0.1 ≤ |normalizePhase (v.phase - c.phase)| →
        normalizePhase (v.phase - c.phase) < 0 →
        (powerStats v c).statusType = "Capacitivo" ∧
        (powerStats v c).statusLag = "En adelanto") := by
    intro v c
    refine ⟨fun h => ?_, fun h1 h2 => ?_, fun h1 h2 => ?_⟩
    · exact ⟨by rw [powerStats_statusType, if_pos h],
        by rw [powerStats_statusLag, if_pos h]⟩
    · exact ⟨by rw [powerStats_statusType, if_neg (not_lt.mpr h1), if_pos h2],
        by rw [powerStats_statusLag, if_neg (not_lt.mpr h1), if_pos h2]⟩
    · exact ⟨by rw [powerStats_statusType, if_neg (not_lt.mpr h1), if_neg h2.not_lt],
        by rw [powerStats_statusLag, if_neg (not_lt.mpr h1), if_neg h2.not_lt]⟩
  have hval : ∀ d : ℝ, -180 < d → d ≤ 180 →
      normalizePhase ((testParams d).phase - (testParams 0).phase) = d := by
    intro d h1 h2
    rw [testParams_phase, testParams_phase, sub_zero]
    exact normalizePhase_eq_self d h1 h2
  refine ⟨gen, ?_, ?_, ?_⟩
  · have h := hval 0.05 (by norm_num) (by norm_num)
    exact (gen _ _).1 (by rw [h]; norm_num [abs_lt])
  · have h := hval 5 (by norm_num) (by norm_num)
    exact (gen _ _).2.1 (by rw [h]; norm_num [le_abs]) (by rw [h]; norm_num)
  · have h := hval (-5) (by norm_num) (by norm_num)
    exact (gen _ _).2.2 (by rw [h]; norm_num [le_abs]) (by rw [h]; norm_num)

theorem classification_policy_witness :
    |normalizePhase ((testParams 0.05).phase - (testParams 0).phase)| < 0.1 ∧
    (powerStats (testParams 0.05) (testParams 0)).statusType = "Resistivo" := by
  have h : normalizePhase ((testParams 0.05).phase - (testParams 0).phase) = 0.05 := by
    rw [testParams_phase, testParams_phase, sub_zero]
    exact normalizePhase_eq_self 0.05 (by norm_num) (by norm_num)
  have hlt : |normalizePhase ((testParams 0.05).phase - (testParams 0).phase)| < 0.1 := by
    rw [h]; norm_num [abs_lt]
  exact ⟨hlt, ((classification_policy.1 (testParams 0.05) (testParams 0)).1 hlt).1⟩

theorem integral_sin_sq_scaled (f : ℝ) (hf : 0 < f) :
    ∫ t in (0:ℝ)..(1/f), Real.sin (2 * Real.pi * f * t) ^ 2 = 1 / (2 * f) := by
  have hpi := Real.pi_pos
  have hc : (2 * Real.pi * f) ≠ 0 := by positivity
  rw [intervalIntegral.integral_comp_mul_left (fun u => Real.sin u ^ 2) hc]
  rw [integral_sin_sq]
  rw [show 2 * Real.pi * f * 0 = 0 by ring,
    show 2 * Real.pi * f * (1/f) = 2 * Real.pi by field_simp]
  rw [Real.sin_zero, Real.sin_two_pi, smul_eq_mul]
  field_simp
  ring

theorem sin_zero_set_null (f : ℝ) (hf : 0 < f) :
    ∀ᵐ t : ℝ, Real.sin (2 * Real.pi * f * t) ≠ 0 := by
  have hpi := Real.pi_pos
  have hc : (2 * Real.pi * f) ≠ 0 := by positivity
  have hsub : {t : ℝ | Real.sin (2 * Real.pi * f * t) = 0} ⊆
      Set.range (fun n : ℤ => (n : ℝ) * Real.pi / (2 * Real.pi * f)) := by
    intro t ht
    simp only [Set.mem_setOf_eq] at ht
    rw [Real.sin_eq_zero_iff] at ht
    obtain ⟨n, hn⟩ := ht
    refine ⟨n, ?_⟩
    rw [div_eq_iff hc]
    linarith [hn]
  have hnull : MeasureTheory.volume {t : ℝ | Real.sin (2 * Real.pi * f * t) = 0} = 0 :=
    MeasureTheory.measure_mono_null hsub ((Set.countable_range _).measure_zero _)
  rw [MeasureTheory.ae_iff]
  have hset : {t : ℝ | ¬ Real.sin (2 * Real.pi * f * t) ≠ 0}
      = {t : ℝ | Real.sin (2 * Real.pi * f * t) = 0} := by
    ext t
    simp
  rw [hset]
  exact hnull

theorem integral_sign_sq (f : ℝ) (hf : 0 < f) :
    ∫ t in (0:ℝ)..(1/f), Real.sign (Real.sin (2 * Real.pi * f * t)) ^ 2 = 1/f := by
  have h1 : ∫ t in (0:ℝ)..(1/f), Real.sign (Real.sin (2 * Real.pi * f * t)) ^ 2
      = ∫ t in (0:ℝ)..(1/f), (1:ℝ) := by
    apply intervalIntegral.integral_congr_ae
    filter_upwards [sin_zero_set_null f hf] with t ht _
    rcases Real.sign_apply_eq_of_ne_zero _ ht with h | h <;> rw [h] <;> norm_num
  rw [h1, intervalIntegral.integral_const, smul_eq_mul, sub_zero, mul_one]

theorem integral_arcsin_sin_sq :
    ∫ u in (0:ℝ)..(2 * Real.pi), Real.arcsin (Real.sin u) ^ 2 = Real.pi ^ 3 / 6 := by
  have hpi := Real.pi_pos
  have hint : ∀ a b : ℝ, IntervalIntegrable (fun u => Real.arcsin (Real.sin u) ^ 2)
      MeasureTheory.volume a b := fun a b =>
    ((Real.continuous_arcsin.comp Real.continuous_sin).pow 2).intervalIntegrable a b
  have e1 : ∫ u in (0:ℝ)..(Real.pi/2), Real.arcsin (Real.sin u) ^ 2
      = ∫ u in (0:ℝ)..(Real.pi/2), u ^ 2 := by
    apply intervalIntegral.integral_congr
    intro u hu
    rw [Set.uIcc_of_le (by positivity)] at hu
    show Real.arcsin (Real.sin u) ^ 2 = u ^ 2
    rw [Real.arcsin_sin (by linarith [hu.1]) hu.2]
  have e2 : ∫ u in (Real.pi/2)..(3*Real.pi/2), Real.arcsin (Real.sin u) ^ 2
      = ∫ u in (Real.pi/2)..(3*Real.pi/2), (Real.pi - u) ^ 2 := by
    apply intervalIntegral.integral_congr
    intro u hu
    rw [Set.uIcc_of_le (by linarith)] at hu
    show Real.arcsin (Real.sin u) ^ 2 = (Real.pi - u) ^ 2
    rw [← Real.sin_pi_sub u, Real.arcsin_sin (by linarith [hu.2]) (by linarith [hu.1])]
  have e3 : ∫ u in (3*Real.pi/2)..(2*Real.pi), Real.arcsin (Real.sin u) ^ 2
      = ∫ u in (3*Real.pi/2)..(2*Real.pi), (u - 2*Real.pi) ^ 2 := by
    apply intervalIntegral.integral_congr
    intro u hu
    rw [Set.uIcc_of_le (by linarith)] at hu
    show Real.arcsin (Real.sin u) ^ 2 = (u - 2*Real.pi) ^ 2
    rw [← Real.sin_sub_two_pi u, Real.arcsin_sin (by linarith [hu.1]) (by linarith [hu.2])]
  have v1 : ∫ u in (0:ℝ)..(Real.pi/2), u ^ 2 = Real.pi ^ 3 / 24 := by
    rw [integral_pow]
    push_cast
    ring
  have v2 : ∫ u in (Real.pi/2)..(3*Real.pi/2), (Real.pi - u) ^ 2 = Real.pi ^ 3 / 12 := by
    rw [intervalIntegral.integral_comp_sub_left (fun v : ℝ => v ^ 2) Real.pi, integral_pow]
    push_cast
    ring
  have v3 : ∫ u in (3*Real.pi/2)..(2*Real.pi), (u - 2*Real.pi) ^ 2 = Real.pi ^ 3 / 24 := by
    rw [intervalIntegral.integral_comp_sub_right (fun v : ℝ => v ^ 2) (2*Real.pi), integral_pow]
    push_cast
    ring
  rw [← intervalIntegral.integral_add_adjacent_intervals (hint 0 (Real.pi/2))
      (hint (Real.pi/2) (2*Real.pi)),
    ← intervalIntegral.integral_add_adjacent_intervals (hint (Real.pi/2) (3*Real.pi/2))
      (hint (3*Real.pi/2) (2*Real.pi)),
    e1, e2, e3, v1, v2, v3]
  ring

theorem integral_triangle_sq (f : ℝ) (hf : 0 < f) :
    ∫ t in (0:ℝ)..(1/f), (2/Real.pi * Real.arcsin (Real.sin (2*Real.pi*f*t))) ^ 2
      = 1/(3*f) := by
  have hpi := Real.pi_pos
  have hc : (2 * Real.pi * f) ≠ 0 := by positivity
  have e : ∫ t in (0:ℝ)..(1/f), (2/Real.pi * Real.arcsin (Real.sin (2*Real.pi*f*t))) ^ 2
      = ∫ t in (0:ℝ)..(1/f), (2/Real.pi)^2 * Real.arcsin (Real.sin (2*Real.pi*f*t)) ^ 2 := by
    apply intervalIntegral.integral_congr
    intro u _
    show (2/Real.pi * Real.arcsin (Real.sin (2*Real.pi*f*u))) ^ 2
      = (2/Real.pi)^2 * Real.arcsin (Real.sin (2*Real.pi*f*u)) ^ 2
    ring
  rw [e, intervalIntegral.integral_const_mul,
    intervalIntegral.integral_comp_mul_left (fun u => Real.arcsin (Real.sin u) ^ 2) hc]
  rw [show 2 * Real.pi * f * 0 = 0 by ring,
    show 2 * Real.pi * f * (1/f) = 2 * Real.pi by field_simp]
  rw [integral_arcsin_sin_sq, smul_eq_mul]
  field_simp
  ring

theorem integral_sawtooth_unit :
    ∫ s in (0:ℝ)..1, (2 * (s - ⌊s + (0.5:ℝ)⌋)) ^ 2 = 1/3 := by
  have hone : ∀ᵐ s : ℝ, s ≠ (1/2 : ℝ) := by
    rw [MeasureTheory.ae_iff]
    have h : {s : ℝ | ¬ s ≠ (1/2:ℝ)} = {(1/2 : ℝ)} := by
      ext s
      simp
    rw [h]
    exact MeasureTheory.measure_singleton _
  have hfloor0 : ∀ s : ℝ, 0 ≤ s → s < 1/2 → ⌊s + (0.5:ℝ)⌋ = 0 := by
    intro s h1 h2
    rw [Int.floor_eq_zero_iff, Set.mem_Ico]
    constructor <;> [linarith; linarith]
  have hfloor1 : ∀ s : ℝ, 1/2 ≤ s → s ≤ 1 → ⌊s + (0.5:ℝ)⌋ = 1 := by
    intro s h1 h2
    rw [Int.floor_eq_iff]
    constructor <;> [push_cast; push_cast] <;> linarith
  have hpoly1 : IntervalIntegrable (fun s : ℝ => 4 * s ^ 2) MeasureTheory.volume 0 (1/2) :=
    ((continuous_const.mul (continuous_pow 2)).intervalIntegrable _ _)
  have hpoly2 : IntervalIntegrable (fun s : ℝ => 4 * (s - 1) ^ 2)
      MeasureTheory.volume (1/2) 1 :=
    ((continuous_const.mul (((continuous_id.sub continuous_const)).pow 2)).intervalIntegrable _ _)
  have haeq1 : (fun s : ℝ => 4 * s ^ 2)
      =ᵐ[MeasureTheory.volume.restrict (Set.uIoc (0:ℝ) (1/2))]
      (fun s : ℝ => (2 * (s - ⌊s + (0.5:ℝ)⌋)) ^ 2) := by
    refine (MeasureTheory.ae_restrict_iff' measurableSet_uIoc).mpr ?_
    filter_upwards [hone] with s hs hmem
    rw [Set.uIoc_of_le (by norm_num : (0:ℝ) ≤ 1/2)] at hmem
    have h2 : s < 1/2 := lt_of_le_of_ne hmem.2 hs
    rw [hfloor0 s hmem.1.le h2]
    push_cast
    ring
  have haeq2 : (fun s : ℝ => 4 * (s - 1) ^ 2)
      =ᵐ[MeasureTheory.volume.restrict (Set.uIoc ((1:ℝ)/2) 1)]
      (fun s : ℝ => (2 * (s - ⌊s + (0.5:ℝ)⌋)) ^ 2) := by
    refine (MeasureTheory.ae_restrict_iff' measurableSet_uIoc).mpr
      (Filter.Eventually.of_forall ?_)
    intro s hmem
    rw [Set.uIoc_of_le (by norm_num : (1/2:ℝ) ≤ 1)] at hmem
    show 4 * (s - 1) ^ 2 = (2 * (s - ⌊s + (0.5:ℝ)⌋)) ^ 2
    rw [hfloor1 s hmem.1.le hmem.2]
    push_cast
    ring
  have hc1 : IntervalIntegrable (fun s : ℝ => (2 * (s - ⌊s + (0.5:ℝ)⌋)) ^ 2)
      MeasureTheory.volume 0 (1/2) := hpoly1.congr haeq1
  have hc2 : IntervalIntegrable (fun s : ℝ => (2 * (s - ⌊s + (0.5:ℝ)⌋)) ^ 2)
      MeasureTheory.volume (1/2) 1 := hpoly2.congr haeq2
  have e1 : ∫ s in (0:ℝ)..(1/2), (2 * (s - ⌊s + (0.5:ℝ)⌋)) ^ 2
      = ∫ s in (0:ℝ)..(1/2), 4 * s ^ 2 := by
    apply intervalIntegral.integral_congr_ae
    filter_upwards [hone] with s hs hmem
    rw [Set.uIoc_of_le (by norm_num : (0:ℝ) ≤ 1/2)] at hmem
    have h2 : s < 1/2 := lt_of_le_of_ne hmem.2 hs
    rw [hfloor0 s hmem.1.le h2]
    push_cast
    ring
  have e2 : ∫ s in ((1:ℝ)/2)..1, (2 * (s - ⌊s + (0.5:ℝ)⌋)) ^ 2
      = ∫ s in ((1:ℝ)/2)..1, 4 * (s - 1) ^ 2 := by
    apply intervalIntegral.integral_congr
    intro s hs
    rw [Set.uIcc_of_le (by norm_num : (1/2:ℝ) ≤ 1)] at hs
    show (2 * (s - ⌊s + (0.5:ℝ)⌋)) ^ 2 = 4 * (s - 1) ^ 2
    rw [hfloor1 s hs.1 hs.2]
    push_cast
    ring
  have v1 : ∫ s in (0:ℝ)..(1/2), (4:ℝ) * s ^ 2 = 1/6 := by
    rw [intervalIntegral.integral_const_mul, integral_pow]
    norm_num
  have v2 : ∫ s in ((1:ℝ)/2)..1, (4:ℝ) * (s - 1) ^ 2 = 1/6 := by
    rw [intervalIntegral.integral_const_mul,
      intervalIntegral.integral_comp_sub_right (fun v : ℝ => v ^ 2) 1, integral_pow]
    norm_num
  rw [← intervalIntegral.integral_add_adjacent_intervals hc1 hc2, e1, e2, v1, v2]
  norm_num

theorem integral_sawtooth_sq (f : ℝ) (hf : 0 < f) :
    ∫ t in (0:ℝ)..(1/f), (2 * (t * f - ⌊t * f + (0.5:ℝ)⌋)) ^ 2 = 1/(3*f) := by
  have e : ∫ t in (0:ℝ)..(1/f), (2 * (t * f - ⌊t * f + (0.5:ℝ)⌋)) ^ 2
      = ∫ t in (0:ℝ)..(1/f), (fun s : ℝ => (2 * (s - ⌊s + (0.5:ℝ)⌋)) ^ 2) (f * t) := by
    apply intervalIntegral.integral_congr
    intro t _
    show (2 * (t * f - ⌊t * f + (0.5:ℝ)⌋)) ^ 2 = (2 * (f * t - ⌊f * t + (0.5:ℝ)⌋)) ^ 2
    rw [mul_comm t f]
  rw [e, intervalIntegral.integral_comp_mul_left
    (fun s : ℝ => (2 * (s - ⌊s + (0.5:ℝ)⌋)) ^ 2) (ne_of_gt hf)]
  rw [show f * (0:ℝ) = 0 by ring, show f * (1/f) = 1 by field_simp]
  rw [integral_sawtooth_unit, smul_eq_mul]
  field_simp
  ring

/-- Claim C5: for every waveform family and every rms ≥ 0, feeding the peak
amplitude returned by the RMS-to-peak converter into the sampler (zero phase,
zero DC offset) and taking the root-mean-square of the resulting signal over
one full period reproduces the original rms value. -/
theorem rms_peak_round_trip (w : Waveform) (rms freq : ℝ) (hrms : 0 ≤ rms) (hf : 0 < freq) :
    rmsOverPeriod (fun t => calculateSignal t (getPeakAmplitude rms w) freq 0 0 w) (1/freq)
      = rms := by
  have hfne : freq ≠ 0 := ne_of_gt hf
  cases w with
  | sine =>
    show Real.sqrt (1/(1/freq) * ∫ t in (0:ℝ)..(1/freq),
      (calculateSignal t (getPeakAmplitude rms .sine) freq 0 0 .sine) ^ 2) = rms
    have e : ∫ t in (0:ℝ)..(1/freq),
        (calculateSignal t (getPeakAmplitude rms .sine) freq 0 0 .sine) ^ 2
        = ∫ t in (0:ℝ)..(1/freq), rms^2*2 * Real.sin (2*Real.pi*freq*t) ^ 2 := by
      apply intervalIntegral.integral_congr
      intro t _
      show (calculateSignal t (getPeakAmplitude rms .sine) freq 0 0 .sine) ^ 2 = _
      rw [calculateSignal_sine]
      show (rms * Real.sqrt 2 * Real.sin (2*Real.pi*freq*t + 0*Real.pi/180) + 0) ^ 2 = _
      rw [show (0:ℝ)*Real.pi/180 = 0 by ring, add_zero, add_zero, mul_pow, mul_pow,
        Real.sq_sqrt (by norm_num : (0:ℝ) ≤ 2)]
    rw [e, intervalIntegral.integral_const_mul, integral_sin_sq_scaled freq hf]
    rw [show 1/(1/freq) * (rms^2*2 * (1/(2*freq))) = rms^2 by field_simp; ring]
    exact Real.sqrt_sq hrms
  | square =>
    show Real.sqrt (1/(1/freq) * ∫ t in (0:ℝ)..(1/freq),
      (calculateSignal t (getPeakAmplitude rms .square) freq 0 0 .square) ^ 2) = rms
    have e : ∫ t in (0:ℝ)..(1/freq),
        (calculateSignal t (getPeakAmplitude rms .square) freq 0 0 .square) ^ 2
        = ∫ t in (0:ℝ)..(1/freq),
            rms^2 * Real.sign (Real.sin (2*Real.pi*freq*t)) ^ 2 := by
      apply intervalIntegral.integral_congr
      intro t _
      show (calculateSignal t (getPeakAmplitude rms .square) freq 0 0 .square) ^ 2 = _
      rw [calculateSignal_square]
      show (rms * Real.sign (Real.sin (2*Real.pi*freq*t + 0*Real.pi/180)) + 0) ^ 2 = _
      rw [show (0:ℝ)*Real.pi/180 = 0 by ring, add_zero, add_zero, mul_pow]
    rw [e, intervalIntegral.integral_const_mul, integral_sign_sq freq hf]
    rw [show 1/(1/freq) * (rms^2 * (1/freq)) = rms^2 by field_simp]
    exact Real.sqrt_sq hrms
  | triangle =>
    show Real.sqrt (1/(1/freq) * ∫ t in (0:ℝ)..(1/freq),
      (calculateSignal t (getPeakAmplitude rms .triangle) freq 0 0 .triangle) ^ 2) = rms
    have e : ∫ t in (0:ℝ)..(1/freq),
        (calculateSignal t (getPeakAmplitude rms .triangle) freq 0 0 .triangle) ^ 2
        = ∫ t in (0:ℝ)..(1/freq),
            rms^2*3 * (2/Real.pi * Real.arcsin (Real.sin (2*Real.pi*freq*t))) ^ 2 := by
      apply intervalIntegral.integral_congr
      intro t _
      show (calculateSignal t (getPeakAmplitude rms .triangle) freq 0 0 .triangle) ^ 2 = _
      rw [calculateSignal_triangle]
      show (rms * Real.sqrt 3 *
        (2/Real.pi * Real.arcsin (Real.sin (2*Real.pi*freq*t + 0*Real.pi/180))) + 0) ^ 2 = _
      rw [show (0:ℝ)*Real.pi/180 = 0 by ring, add_zero, add_zero, mul_pow, mul_pow,
        Real.sq_sqrt (by norm_num : (0:ℝ) ≤ 3)]
    rw [e, intervalIntegral.integral_const_mul, integral_triangle_sq freq hf]
    rw [show 1/(1/freq) * (rms^2*3 * (1/(3*freq))) = rms^2 by field_simp; ring]
    exact Real.sqrt_sq hrms
  | sawtooth =>
    show Real.sqrt (1/(1/freq) * ∫ t in (0:ℝ)..(1/freq),
      (calculateSignal t (getPeakAmplitude rms .sawtooth) freq 0 0 .sawtooth) ^ 2) = rms
    have e : ∫ t in (0:ℝ)..(1/freq),
        (calculateSignal t (getPeakAmplitude rms .sawtooth) freq 0 0 .sawtooth) ^ 2
        = ∫ t in (0:ℝ)..(1/freq),
            rms^2*3 * (2 * (t * freq - ⌊t * freq + (0.5:ℝ)⌋)) ^ 2 := by
      apply intervalIntegral.integral_congr
      intro t _
      show (calculateSignal t (getPeakAmplitude rms .sawtooth) freq 0 0 .sawtooth) ^ 2 = _
      rw [calculateSignal_sawtooth]
      show (rms * Real.sqrt 3 *
        (2 * ((t + 0/360 * (1/freq)) * freq - ⌊(t + 0/360 * (1/freq)) * freq + 0.5⌋)) + 0) ^ 2
        = _
      rw [show t + (0:ℝ)/360 * (1/freq) = t by ring, add_zero, mul_pow, mul_pow,
        Real.sq_sqrt (by norm_num : (0:ℝ) ≤ 3)]
    rw [e, intervalIntegral.integral_const_mul, integral_sawtooth_sq freq hf]
    rw [show 1/(1/freq) * (rms^2*3 * (1/(3*freq))) = rms^2 by field_simp; ring]
    exact Real.sqrt_sq hrms

theorem rms_peak_round_trip_witness :
    (0:ℝ) ≤ 1 ∧ (0:ℝ) < 1 ∧
      rmsOverPeriod (fun t => calculateSignal t (getPeakAmplitude 1 .sine) 1 0 0 .sine) (1/1)
        = 1 :=
  ⟨by norm_num, by norm_num, rms_peak_round_trip .sine 1 1 (by norm_num) (by norm_num)⟩

end ACLab
